import Mathlib

/-!
Verification development for `hossam/classification.py`.

The file shallowly embeds the parts of the module that the claims of the specification
 are about:

* the per-split scorecard construction of `my_classification_result`
  (lines 270-450 of the source), with the external `sklearn.metrics` values
  supplied through a `Metrics` record of rational numbers;
* the per-job control flow of `__my_classification` (search/fit error
  handling, lines 79-161, and the attach step, lines 166-230);
* the concurrent dispatcher `my_classification` (lines 1230-1455): job
  submission gated by the `algorithm` list, collection of completed jobs
  with `p.result()`, and assembly of the comparison report.

Machine reals are modelled as `ℚ`; the IEEE value NaN produced by the `0/0` scalar division of numpy
 is modelled as `none` in an `Option ℚ` scorecard
value.  Exceptions are modelled with `Except String`.
-/

/-- The `average=` keyword argument passed to `sklearn.metrics`
precision/recall/f1 calls: the library default for binary targets
(`binAvg`), `"macro"` (`macAvg`) or `"micro"` (`micAvg`). -/
inductive Avg
  | binAvg
  | macAvg
  | micAvg
deriving DecidableEq

/-- Values of the external metric library (`sklearn.metrics`) for one fixed
argument triple `(y, y_pred, y_pred_proba)`.  The repository delegates all
statistical formulas to this library, so the embedding treats each returned
scalar as an input.  The confusion-matrix cells `TN FP FN TP` are the
four entries of `confusion_matrix(y, y_pred)` in the unpacking order
`((TN, FP), (FN, TP))` used at lines 306 and 366 of the source. -/
structure Metrics where
  accuracy_score : ℚ
  precision_score : Avg → ℚ
  recall_score : Avg → ℚ
  f1_score : Avg → ℚ
  roc_auc_score : ℚ
  roc_auc_multi : String → ℚ
  log_loss_fit : ℚ
  log_loss_null : ℚ
  TN : Nat
  FP : Nat
  FN : Nat
  TP : Nat

/-- numpy scalar true division: `0/0` on `np.int64` operands yields NaN
(with a runtime warning) instead of raising; any other division yields the
exact quotient.  In the source the only division with a possibly-zero
denominator is `FP / (TN + FP)`, whose numerator is then also zero. -/
def npDiv (a b : ℚ) : Option ℚ := if b = 0 then none else some (a / b)

/-- NaN-propagating subtraction from 1, for `1 - (FP / (TN + FP))` in the source. -/
def oneMinus : Option ℚ → Option ℚ
  | none => none
  | some q => some (1 - q)

/-- Column label of the pseudo R2 scorecard entry. -/
def pseudoKey : String := "의사결정계수(Pseudo R2)"

/-- The pseudo R2 computed at lines 289-297 of the source for the training
split (and identically at lines 353-359 for the validation split): it is
initialised to `0` and overwritten only when the job is binary and the
estimator class is `LogisticRegression`, in which case
`y_log_loss_test = -log_loss(y, proba, normalize=False)`,
`y_log_loss_null = -log_loss(y, null, normalize=False)` and the result is
`1 - (y_log_loss_test / y_log_loss_null)`. -/
def pseudoR2 (is_binary : Bool) (className : String) (m : Metrics) : ℚ :=
  if is_binary ∧ className = "LogisticRegression" then
    1 - (-m.log_loss_fit) / (-m.log_loss_null)
  else 0

/-- The `result` dictionary built for the training split at lines 305-339 of
`my_classification_result`, as an ordered association list.  `is_binary`
is `len(estimator.classes_) == 2` (line 278), `hasProba` is
`hasattr(estimator, "predict_proba")`, `multiclass` is the caller-supplied
selector.  Binary branch: pseudo R2, accuracy, precision, recall,
`FP / (TN + FP)` (fallout), `1 - FP / (TN + FP)` (TNR), F1, and AUC when
probabilities exist.  Multi-class branch: accuracy, macro precision,
micro recall (line 326), macro F1, and the two AUC entries gated on
`multiclass == "ovo" or multiclass == None` resp. `"ovr"`. -/
def my_classification_result_train (is_binary : Bool) (className : String)
    (hasProba : Bool) (multiclass : Option String) (m : Metrics) :
    List (String × Option ℚ) :=
  if is_binary then
    let base : List (String × Option ℚ) :=
      [ (pseudoKey, some (pseudoR2 true className m))
      , ("정확도(Accuracy)", some m.accuracy_score)
      , ("정밀도(Precision)", some (m.precision_score .binAvg))
      , ("재현율(Recall)", some (m.recall_score .binAvg))
      , ("위양성율(Fallout)", npDiv m.FP (m.TN + m.FP))
      , ("특이성(TNR)", oneMinus (npDiv m.FP (m.TN + m.FP)))
      , ("F1 Score", some (m.f1_score .binAvg)) ]
    if hasProba then base ++ [("AUC", some m.roc_auc_score)] else base
  else
    let base : List (String × Option ℚ) :=
      [ ("정확도(Accuracy)", some m.accuracy_score)
      , ("정밀도(Precision)", some (m.precision_score .macAvg))
      , ("재현율(Recall)", some (m.recall_score .micAvg))
      , ("F1 Score", some (m.f1_score .macAvg)) ]
    let base :=
      if hasProba ∧ (multiclass = some "ovo" ∨ multiclass = none) then
        base ++ [("AUC(ovo)", some (m.roc_auc_multi "ovo"))]
      else base
    if hasProba ∧ (multiclass = some "ovr" ∨ multiclass = none) then
      base ++ [("AUC(ovr)", some (m.roc_auc_multi "ovr"))]
    else base

/-- The `result` dictionary built for the validation split at lines 364-400
of `my_classification_result`.  Identical to the training-split dictionary
except that the multi-class recall is macro-averaged (line 387) where the
training split used micro averaging (line 326). -/
def my_classification_result_test (is_binary : Bool) (className : String)
    (hasProba : Bool) (multiclass : Option String) (m : Metrics) :
    List (String × Option ℚ) :=
  if is_binary then
    let base : List (String × Option ℚ) :=
      [ (pseudoKey, some (pseudoR2 true className m))
      , ("정확도(Accuracy)", some m.accuracy_score)
      , ("정밀도(Precision)", some (m.precision_score .binAvg))
      , ("재현율(Recall)", some (m.recall_score .binAvg))
      , ("위양성율(Fallout)", npDiv m.FP (m.TN + m.FP))
      , ("특이성(TNR)", oneMinus (npDiv m.FP (m.TN + m.FP)))
      , ("F1 Score", some (m.f1_score .binAvg)) ]
    if hasProba then base ++ [("AUC", some m.roc_auc_score)] else base
  else
    let base : List (String × Option ℚ) :=
      [ ("정확도(Accuracy)", some m.accuracy_score)
      , ("정밀도(Precision)", some (m.precision_score .macAvg))
      , ("재현율(Recall)", some (m.recall_score .macAvg))
      , ("F1 Score", some (m.f1_score .macAvg)) ]
    let base :=
      if hasProba ∧ (multiclass = some "ovo" ∨ multiclass = none) then
        base ++ [("AUC(ovo)", some (m.roc_auc_multi "ovo"))]
      else base
    if hasProba ∧ (multiclass = some "ovr" ∨ multiclass = none) then
      base ++ [("AUC(ovr)", some (m.roc_auc_multi "ovr"))]
    else base

/-- The column drop performed at lines 443-445 of the source before the
scorecard table is displayed: when the estimator class is not
`LogisticRegression` and the pseudo R2 column is present, it is removed. -/
def displayedColumns (className : String) (cols : List String) : List String :=
  if className ≠ "LogisticRegression" ∧ pseudoKey ∈ cols then
    cols.erase pseudoKey
  else cols

/-- A metrics record with every external value zero, used to instantiate
universally quantified theorems at a concrete input. -/
def m0 : Metrics :=
  { accuracy_score := 0, precision_score := fun _ => 0, recall_score := fun _ => 0
    f1_score := fun _ => 0, roc_auc_score := 0, roc_auc_multi := fun _ => 0
    log_loss_fit := 0, log_loss_null := 0, TN := 0, FP := 0, FN := 0, TP := 0 }

/-- The six estimator families submitted by the dispatcher (the `lsvc`
branch at lines 1328-1344 of the source is commented out). -/
inductive Alg
  | logistic
  | knn
  | svc
  | nb
  | dtree
  | sgd
deriving DecidableEq

/-- The Python class name of the estimator class of each algorithm, used by the
dispatcher as the mapping key and row index (`estimator.__class__.__name__`,
line 1445 of the source). -/
def Alg.className : Alg → String
  | .logistic => "LogisticRegression"
  | .knn => "KNeighborsClassifier"
  | .svc => "SVC"
  | .nb => "GaussianNB"
  | .dtree => "DecisionTreeClassifier"
  | .sgd => "SGDClassifier"

/-- The estimator object returned by one job (the spec calls it the
FitResult), as far as the dispatcher inspects it: its class (via the
originating algorithm) and the scorecard dictionary stored on it at
line 450 of the source (`estimator.scores`). -/
structure FitResult where
  alg : Alg
  scores : List (String × Option ℚ)
deriving DecidableEq

/-- Outcome of running one `__my_classification` job inside the thread
pool.  `ok` is a returned estimator; `failedNone` is the `return None` at
line 128 of the source (exception caught around `grid.fit`); `raised` is an
uncaught exception, which `concurrent.futures` stores in the future and
re-raises when the dispatcher calls `p.result()`. -/
inductive JobOutcome
  | ok (e : FitResult)
  | failedNone
  | raised
deriving DecidableEq

/-- What the external library does when this particular job runs, plus the
scorecard the scoring phase would attach on success.  `gridFitRaises`
covers the `cv > 0` path, where search and the refit of the best estimator
both happen inside `grid.fit` (line 125); `fitRaises` covers the direct
`estimator.fit` call of the `cv == 0` path (line 161). -/
structure ExtBehavior where
  gridFitRaises : Bool
  fitRaises : Bool
  scores : List (String × Option ℚ)

/-- Models the error-handling skeleton of `__my_classification`
(lines 79-161 of the source) for algorithm `a`.  With `cv > 0` the call to
`grid.fit` is wrapped in `try/except` and a failure returns `None`; with
`cv == 0` the direct `estimator.fit` call has no handler, so a failure
becomes a stored exception.  Failures of the later scoring phase are
outside this model: the claims under study concern the fitting step. -/
def my_classification_job (cv : Nat) (a : Alg) (b : ExtBehavior) : JobOutcome :=
  if 0 < cv then
    if b.gridFitRaises then .failedNone else .ok ⟨a, b.scores⟩
  else
    if b.fitRaises then .raised else .ok ⟨a, b.scores⟩

/-- The condition `not algorithm or NAME in algorithm` guarding each
`executor.submit` call (lines 1280, 1304, 1346, 1364, 1388, 1412 of the
source): the Python `not` is true of both `None` and the empty list. -/
def algRequested (algorithm : Option (List String)) (s : String) : Bool :=
  match algorithm with
  | none => true
  | some l => l.isEmpty || l.contains s

/-- The jobs submitted by `my_classification`, in submission order. -/
def submittedAlgs (algorithm : Option (List String)) : List Alg :=
  (if algRequested algorithm "logistic" then [Alg.logistic] else []) ++
  (if algRequested algorithm "knn" then [Alg.knn] else []) ++
  (if algRequested algorithm "svc" then [Alg.svc] else []) ++
  (if algRequested algorithm "nb" then [Alg.nb] else []) ++
  (if algRequested algorithm "dtree" then [Alg.dtree] else []) ++
  (if algRequested algorithm "sgd" then [Alg.sgd] else [])

/-- The collection loop `for p in futures.as_completed(processes)`
(lines 1437-1449 of the source), applied to the job outcomes in completion
order.  `p.result()` re-raises a stored exception, which nothing in
`my_classification` catches; a `None` result is skipped; an estimator is
appended. -/
def collectCompleted : List JobOutcome → Except String (List FitResult)
  | [] => .ok []
  | .raised :: _ => .error "exception re-raised by p.result()"
  | .failedNone :: rest => collectCompleted rest
  | .ok e :: rest => (collectCompleted rest).map (fun l => e :: l)

/-- The final output of the dispatcher: the `estimator_names` row index, the
`estimators` name-to-model mapping that the function returns, and the
`results` scorecard rows turned into the displayed comparison table
(lines 1273-1276 and 1444-1453 of the source). -/
structure Report where
  estimator_names : List String
  estimators : List (String × FitResult)
  results : List (List (String × Option ℚ))
deriving DecidableEq

/-- Assembly of the comparison report from the collected estimators, in
collection order (loop body at lines 1441-1449 of the source). -/
def assembleReport (es : List FitResult) : Report :=
  { estimator_names := es.map (fun e => e.alg.className)
    estimators := es.map (fun e => (e.alg.className, e))
    results := es.map FitResult.scores }

/-- The dispatcher `my_classification` (lines 1230-1455 of the source).
`behavior` gives the behaviour of the external library for the job of each algorithm
and `completed` lists the submitted jobs in the order
`futures.as_completed` yields them; theorems relate `completed` to
`submittedAlgs algorithm` by a permutation hypothesis.  The result is the
returned `estimators` mapping together with the assembled table, or the
exception that `p.result()` re-raised. -/
def my_classification (cv : Nat) (algorithm : Option (List String))
    (behavior : Alg → ExtBehavior) (completed : List Alg) :
    Except String Report :=
  (collectCompleted
    (completed.map (fun a => my_classification_job cv a (behavior a)))).map
    assembleReport

/-- Which input dataset a computed value came from. -/
inductive DataSrc
  | train
  | test
deriving DecidableEq

/-- The fields attached to the fitted estimator by `__my_classification`
and `my_classification_result`, each recorded as the dataset it was
computed from. -/
structure AttachedResult where
  initialPred : DataSrc
  x : DataSrc
  y : DataSrc
  y_pred : DataSrc
  y_pred_proba : Option DataSrc
  scoresSplit : DataSrc
deriving DecidableEq

/-- Models lines 166-223 and 450 of the source.  The first prediction pass
(lines 167-169) runs on `x_test` when it is present, else on `x_train`;
`estimator.x` (line 179) follows `x_test`; `estimator.y` (line 180) follows
`y_test`; `estimator.y_pred` (line 181) keeps the first pass only when
`y_test` is present and otherwise recomputes `estimator.predict(x_train)`;
`estimator.y_pred_proba` (lines 183-186) mirrors that when the estimator
has `predict_proba`; `my_classification_result` is called with the test
split only when both `x_test` and `y_test` are present (line 190), and it
stores `scores[-2]` (line 450), the scorecard of the last evaluated split:
the validation split when both test pieces are present, else the training
split. -/
def my_classification_attach (has_x_test has_y_test hasProba : Bool) :
    AttachedResult :=
  let firstPred : DataSrc := if has_x_test then .test else .train
  { initialPred := firstPred
    x := if has_x_test then .test else .train
    y := if has_y_test then .test else .train
    y_pred := if has_y_test then firstPred else .train
    y_pred_proba :=
      if hasProba then some (if has_y_test then firstPred else .train)
      else none
    scoresSplit := if has_x_test ∧ has_y_test then .test else .train }

/-- `TN`, `FP`, `FN`, `TP` as the cells of
`confusion_matrix(y_true, y_pred)` for binary labels (`false` is the
negative class, `true` the positive): the number of index positions where
`y_true` holds `a` and `y_pred` holds `b`. -/
def countPairs (y_true y_pred : List Bool) (a b : Bool) : Nat :=
  ((y_true.zip y_pred).filter (fun q => q.1 == a && q.2 == b)).length

/-- The label set of `confusion_matrix(y_true, y_pred)`: the distinct
values occurring in either argument.  Its size is the dimension of the
returned square matrix. -/
def cmLabels (y_true y_pred : List Bool) : List Bool := (y_true ++ y_pred).dedup

/-- Replaces the externally supplied confusion-matrix cells of a `Metrics`
record by the ones computed from concrete binary label lists. -/
def metricsWith (y_true y_pred : List Bool) (ext : Metrics) : Metrics :=
  { ext with
    TN := countPairs y_true y_pred false false
    FP := countPairs y_true y_pred false true
    FN := countPairs y_true y_pred true false
    TP := countPairs y_true y_pred true true }

/-- The binary branch of the training-split scoring (lines 299-341 of the
source) on concrete label lists, with its two raising points made
explicit: the tuple unpacking `((TN, FP), (FN, TP)) = conf_mat` (line 306)
raises `ValueError` unless the confusion matrix is 2x2, and
`roc_auc_score` (line 319, reached only when the estimator has
`predict_proba`) raises `ValueError` when `y_true` contains a single
class.  The remaining sklearn metric calls warn instead of raising on
degenerate inputs and are represented by the `ext` oracle. -/
def my_classification_result_train_binary (y_true y_pred : List Bool)
    (className : String) (hasProba : Bool) (ext : Metrics) :
    Except String (List (String × Option ℚ)) :=
  if (cmLabels y_true y_pred).length ≠ 2 then
    .error "ValueError: not enough values to unpack"
  else if hasProba && decide (y_true.dedup.length < 2) then
    .error "ValueError: only one class present in y_true"
  else
    .ok (my_classification_result_train true className hasProba none
      (metricsWith y_true y_pred ext))

/-- Keys of the binary scorecard of an estimator exposing `predict_proba`,
in insertion order (lines 308-319 of the source). -/
def binaryKeysWithProba : List String :=
  [pseudoKey, "정확도(Accuracy)", "정밀도(Precision)", "재현율(Recall)",
   "위양성율(Fallout)", "특이성(TNR)", "F1 Score", "AUC"]

theorem binary_train_keys_proba (cn : String) (mc : Option String)
    (m : Metrics) :
    (my_classification_result_train true cn true mc m).map Prod.fst
      = binaryKeysWithProba := rfl

theorem binary_train_lookup_fallout (cn : String) (hp : Bool)
    (mc : Option String) (m : Metrics) :
    (my_classification_result_train true cn hp mc m).lookup "위양성율(Fallout)"
      = some (npDiv m.FP (m.TN + m.FP)) := by
  cases hp <;> rfl

theorem binary_train_lookup_tnr (cn : String) (hp : Bool)
    (mc : Option String) (m : Metrics) :
    (my_classification_result_train true cn hp mc m).lookup "특이성(TNR)"
      = some (oneMinus (npDiv m.FP (m.TN + m.FP))) := by
  cases hp <;> rfl

theorem binary_train_lookup_pseudo (cn : String) (hp : Bool)
    (mc : Option String) (m : Metrics) :
    (my_classification_result_train true cn hp mc m).lookup pseudoKey
      = some (some (pseudoR2 true cn m)) := by
  cases hp <;> rfl

/-- Claim C10: when validation features are supplied without validation
labels (`x_test` present, `y_test` absent), the stored scorecard is the
training-split scorecard, and the attached predictions and probability
estimates are recomputed on the training data, even though the initial
prediction pass ran on `x_test`. -/
theorem attach_test_features_without_labels (hp : Bool) :
    (my_classification_attach true false hp).scoresSplit = DataSrc.train
    ∧ (my_classification_attach true false hp).y_pred = DataSrc.train
    ∧ (my_classification_attach true false hp).y_pred_proba
        = (if hp then some DataSrc.train else none)
    ∧ (my_classification_attach true false hp).initialPred = DataSrc.test := by
  cases hp <;> exact ⟨rfl, rfl, rfl, rfl⟩

/-- Claim C5: for multi-class jobs the training-split recall is computed
with micro averaging while the validation-split recall uses macro
averaging, and precision and F1 are macro-averaged on both splits.  The
equations hold for every metrics oracle, so they pin down exactly which
`average=` argument each scorecard entry was produced with. -/
theorem multiclass_recall_averaging (cn : String) (hp : Bool)
    (mc : Option String) (mTr mTe : Metrics) :
    (my_classification_result_train false cn hp mc mTr).lookup "재현율(Recall)"
        = some (some (mTr.recall_score .micAvg))
    ∧ (my_classification_result_test false cn hp mc mTe).lookup "재현율(Recall)"
        = some (some (mTe.recall_score .macAvg))
    ∧ (my_classification_result_train false cn hp mc mTr).lookup "정밀도(Precision)"
        = some (some (mTr.precision_score .macAvg))
    ∧ (my_classification_result_test false cn hp mc mTe).lookup "정밀도(Precision)"
        = some (some (mTe.precision_score .macAvg))
    ∧ (my_classification_result_train false cn hp mc mTr).lookup "F1 Score"
        = some (some (mTr.f1_score .macAvg))
    ∧ (my_classification_result_test false cn hp mc mTe).lookup "F1 Score"
        = some (some (mTe.f1_score .macAvg)) := by
  refine ⟨?_, ?_, ?_, ?_, ?_, ?_⟩ <;>
    · simp only [my_classification_result_train, my_classification_result_test]
      split_ifs <;> first | rfl | contradiction

/-- Keys of the binary scorecard of an estimator without `predict_proba`. -/
def binaryKeysNoProba : List String :=
  [pseudoKey, "정확도(Accuracy)", "정밀도(Precision)", "재현율(Recall)",
   "위양성율(Fallout)", "특이성(TNR)", "F1 Score"]

theorem binary_train_keys_noproba (cn : String) (mc : Option String)
    (m : Metrics) :
    (my_classification_result_train true cn false mc m).map Prod.fst
      = binaryKeysNoProba := rfl

/-- Claim C6: on a binary job the pseudo R2 entry equals
`1 - log_loss(fitted) / log_loss(null)` with unnormalized log-losses when
the estimator is `LogisticRegression` (the two sign flips of the source
cancel), equals `0` for every other binary estimator, and is removed from
the displayed table exactly when the model is not logistic. -/
theorem binary_pseudo_r2 (cn : String) (hp : Bool) (mc : Option String)
    (m : Metrics) :
    (my_classification_result_train true "LogisticRegression" hp mc m).lookup pseudoKey
        = some (some (1 - m.log_loss_fit / m.log_loss_null))
    ∧ (cn ≠ "LogisticRegression" →
        (my_classification_result_train true cn hp mc m).lookup pseudoKey
          = some (some 0))
    ∧ (pseudoKey ∈ displayedColumns cn
          ((my_classification_result_train true cn hp mc m).map Prod.fst)
        ↔ cn = "LogisticRegression") := by
  refine ⟨?_, ?_, ?_⟩
  · rw [binary_train_lookup_pseudo]
    simp [pseudoR2, neg_div_neg_eq]
  · intro h
    rw [binary_train_lookup_pseudo]
    simp [pseudoR2, h]
  · have hkeys : (my_classification_result_train true cn hp mc m).map Prod.fst
        = if hp then binaryKeysWithProba else binaryKeysNoProba := by
      cases hp
      · exact binary_train_keys_noproba cn mc m
      · exact binary_train_keys_proba cn mc m
    rw [hkeys]
    rcases eq_or_ne cn "LogisticRegression" with hcn | hcn
    · subst hcn
      simp only [displayedColumns]
      cases hp <;> simp <;> decide
    · simp only [displayedColumns]
      cases hp <;> simp [hcn] <;> decide

theorem multiclass_train_keys (cn : String) (hp : Bool) (mc : Option String)
    (m : Metrics) :
    (my_classification_result_train false cn hp mc m).map Prod.fst
      = ["정확도(Accuracy)", "정밀도(Precision)", "재현율(Recall)", "F1 Score"]
        ++ (if hp ∧ (mc = some "ovo" ∨ mc = none) then ["AUC(ovo)"] else [])
        ++ (if hp ∧ (mc = some "ovr" ∨ mc = none) then ["AUC(ovr)"] else []) := by
  simp only [my_classification_result_train]
  split_ifs <;> first | rfl | contradiction

theorem multiclass_test_keys (cn : String) (hp : Bool) (mc : Option String)
    (m : Metrics) :
    (my_classification_result_test false cn hp mc m).map Prod.fst
      = ["정확도(Accuracy)", "정밀도(Precision)", "재현율(Recall)", "F1 Score"]
        ++ (if hp ∧ (mc = some "ovo" ∨ mc = none) then ["AUC(ovo)"] else [])
        ++ (if hp ∧ (mc = some "ovr" ∨ mc = none) then ["AUC(ovr)"] else []) := by
  simp only [my_classification_result_test]
  split_ifs <;> first | rfl | contradiction

/-- Claim C7: on a multi-class job with probability estimates, the
scorecard contains `AUC(ovo)` exactly when the `multiclass` selector is
`"ovo"` or unspecified, contains `AUC(ovr)` exactly when the selector is
`"ovr"` or unspecified, and in particular with selector `"ovr"` each split
scorecard contains `AUC(ovr)` and omits `AUC(ovo)`. -/
theorem multiclass_auc_selector (cn : String) (mc : Option String)
    (mTr mTe : Metrics) :
    ("AUC(ovo)" ∈ (my_classification_result_train false cn true mc mTr).map Prod.fst
        ↔ (mc = some "ovo" ∨ mc = none))
    ∧ ("AUC(ovr)" ∈ (my_classification_result_train false cn true mc mTr).map Prod.fst
        ↔ (mc = some "ovr" ∨ mc = none))
    ∧ ("AUC(ovo)" ∈ (my_classification_result_test false cn true mc mTe).map Prod.fst
        ↔ (mc = some "ovo" ∨ mc = none))
    ∧ ("AUC(ovr)" ∈ (my_classification_result_test false cn true mc mTe).map Prod.fst
        ↔ (mc = some "ovr" ∨ mc = none))
    ∧ (mc = some "ovr" →
        "AUC(ovr)" ∈ (my_classification_result_train false cn true mc mTr).map Prod.fst
        ∧ "AUC(ovo)" ∉ (my_classification_result_train false cn true mc mTr).map Prod.fst
        ∧ "AUC(ovr)" ∈ (my_classification_result_test false cn true mc mTe).map Prod.fst
        ∧ "AUC(ovo)" ∉ (my_classification_result_test false cn true mc mTe).map Prod.fst) := by
  rw [multiclass_train_keys cn true mc mTr, multiclass_test_keys cn true mc mTe]
  by_cases h1 : mc = some "ovo" ∨ mc = none <;>
    by_cases h2 : mc = some "ovr" ∨ mc = none
  · rcases h1 with h1 | h1 <;> rcases h2 with h2 | h2 <;> subst h1 <;>
      simp_all
  · simp [h1, h2]
    exact fun h => h2 (Or.inl h)
  · simp [h1, h2]
  · simp [h1, h2]
    exact fun h => h2 (Or.inl h)

/-- Witness for `binary_pseudo_r2` at the non-logistic class name `"SVC"`. -/
theorem binary_pseudo_r2_witness :
    (my_classification_result_train true "LogisticRegression" true none m0).lookup pseudoKey
        = some (some (1 - m0.log_loss_fit / m0.log_loss_null))
    ∧ (my_classification_result_train true "SVC" true none m0).lookup pseudoKey
        = some (some 0)
    ∧ (pseudoKey ∈ displayedColumns "SVC"
          ((my_classification_result_train true "SVC" true none m0).map Prod.fst)
        ↔ "SVC" = "LogisticRegression") := by
  have h := binary_pseudo_r2 "SVC" true none m0
  exact ⟨h.1, h.2.1 (by decide), h.2.2⟩

/-- Witness for `multiclass_auc_selector` at selector `"ovr"`. -/
theorem multiclass_auc_selector_witness :
    "AUC(ovr)" ∈ (my_classification_result_train false "GaussianNB" true
        (some "ovr") m0).map Prod.fst
    ∧ "AUC(ovo)" ∉ (my_classification_result_train false "GaussianNB" true
        (some "ovr") m0).map Prod.fst
    ∧ "AUC(ovr)" ∈ (my_classification_result_test false "GaussianNB" true
        (some "ovr") m0).map Prod.fst
    ∧ "AUC(ovo)" ∉ (my_classification_result_test false "GaussianNB" true
        (some "ovr") m0).map Prod.fst :=
  (multiclass_auc_selector "GaussianNB" (some "ovr") m0 m0).2.2.2.2 rfl

/-- The estimator carried by an `ok` outcome, if any. -/
def okPart : JobOutcome → Option FitResult
  | .ok e => some e
  | .failedNone => none
  | .raised => none

theorem collectCompleted_no_raise (outs : List JobOutcome)
    (h : JobOutcome.raised ∉ outs) :
    collectCompleted outs = .ok (outs.filterMap okPart) := by
  induction outs with
  | nil => rfl
  | cons o rest ih =>
    rw [List.mem_cons, not_or] at h
    cases o with
    | raised => exact absurd rfl h.1
    | failedNone =>
      simp [collectCompleted, List.filterMap_cons, okPart, ih h.2]
    | ok e =>
      simp [collectCompleted, List.filterMap_cons, okPart, ih h.2, Except.map]

theorem collectCompleted_ok_inv (outs : List JobOutcome)
    (es : List FitResult) (h : collectCompleted outs = .ok es) :
    JobOutcome.raised ∉ outs ∧ es = outs.filterMap okPart := by
  induction outs generalizing es with
  | nil =>
    refine ⟨List.not_mem_nil _, ?_⟩
    simpa [collectCompleted] using h.symm
  | cons o rest ih =>
    cases o with
    | raised => exact absurd h (by simp [collectCompleted])
    | failedNone =>
      obtain ⟨h1, h2⟩ := ih es (by simpa [collectCompleted] using h)
      exact ⟨by simp [h1], by simpa [List.filterMap_cons, okPart] using h2⟩
    | ok e =>
      rw [collectCompleted] at h
      cases hrest : collectCompleted rest with
      | error s => rw [hrest] at h; exact absurd h (by simp [Except.map])
      | ok l =>
        rw [hrest] at h
        obtain ⟨h1, h2⟩ := ih l hrest
        refine ⟨by simp [h1], ?_⟩
        simp only [Except.map, Except.ok.injEq] at h
        simp [← h, List.filterMap_cons, okPart, h2]

theorem my_classification_all_ok (cv : Nat) (algorithm : Option (List String))
    (behavior : Alg → ExtBehavior) (completed : List Alg)
    (h : ∀ a ∈ completed,
      my_classification_job cv a (behavior a) = .ok ⟨a, (behavior a).scores⟩) :
    my_classification cv algorithm behavior completed = .ok
      { estimator_names := completed.map Alg.className
        estimators :=
          completed.map (fun a => (a.className, ⟨a, (behavior a).scores⟩))
        results := completed.map (fun a => (behavior a).scores) } := by
  have hcollect : collectCompleted
      (completed.map (fun a => my_classification_job cv a (behavior a)))
      = .ok (completed.map (fun a => (⟨a, (behavior a).scores⟩ : FitResult))) := by
    induction completed with
    | nil => rfl
    | cons a rest ih =>
      rw [List.map_cons, h a (List.mem_cons_self a rest), collectCompleted,
        ih (fun b hb => h b (List.mem_cons_of_mem a hb))]
      rfl
  rw [my_classification, hcollect]
  simp [assembleReport, Except.map, List.map_map, Function.comp]

/-- External behaviour in which the direct `estimator.fit` call of the
`cv == 0` path raises (for example, a hyperparameter rejected by the
estimator constructor is detected at fit time). -/
def fitRaisingBehavior : ExtBehavior :=
  { gridFitRaises := false, fitRaises := true, scores := [] }

/-- Claim C1, counterexample: a single `logistic` job run with `cv = 0`
whose model fitting raises.  The exception is stored in the future of the job
and re-raised by `p.result()` inside `my_classification`, so it does
propagate out of the dispatcher to the caller, contrary to the claim that
a fit failure is always caught at the job boundary.  (`[Alg.logistic]` is
the completion order of the single submitted job.) -/
theorem fit_failure_propagates_counterexample :
    submittedAlgs (some ["logistic"]) = [Alg.logistic]
    ∧ my_classification 0 (some ["logistic"]) (fun _ => fitRaisingBehavior)
        [Alg.logistic]
      = .error "exception re-raised by p.result()" := ⟨rfl, rfl⟩

theorem filterMap_okPart_cv_pos (cv : Nat) (hcv : 0 < cv)
    (behavior : Alg → ExtBehavior) (l : List Alg) :
    ((l.map (fun a => my_classification_job cv a (behavior a))).filterMap
        okPart).map (fun e => e.alg.className)
      = (l.filter (fun a => !(behavior a).gridFitRaises)).map Alg.className := by
  induction l with
  | nil => rfl
  | cons a rest ih =>
    by_cases hg : (behavior a).gridFitRaises
    · have hj : my_classification_job cv a (behavior a) = .failedNone := by
        simp [my_classification_job, hcv, hg]
      simp only [List.map_cons, hj, List.filterMap_cons, okPart,
        List.filter_cons, hg]
      simpa using ih
    · have hj : my_classification_job cv a (behavior a)
          = .ok ⟨a, (behavior a).scores⟩ := by
        simp [my_classification_job, hcv, hg]
      simp only [List.map_cons, hj, List.filterMap_cons, okPart,
        List.filter_cons, hg]
      simpa using ih

/-- Claim C1, amended: when `cv > 0` — the configuration in which model
fitting happens inside `grid.fit`, the one call the source wraps in
`try/except` — a fitting (or search) failure is caught at the job
boundary: the job yields no result, sibling jobs still contribute theirs
in completion order, and no exception propagates out of
`my_classification`.  When `cv = 0` the direct fit call is unguarded and
its exception is re-raised to the caller by the collection loop, as the
counterexample shows. -/
theorem fit_failure_caught_when_cv_pos (cv : Nat) (hcv : 0 < cv)
    (algorithm : Option (List String)) (behavior : Alg → ExtBehavior)
    (completed : List Alg) :
    ∃ r, my_classification cv algorithm behavior completed = .ok r
      ∧ r.estimator_names =
          (completed.filter (fun a => !(behavior a).gridFitRaises)).map
            Alg.className := by
  have hnr : ∀ a ∈ completed,
      my_classification_job cv a (behavior a) ≠ .raised := by
    intro a _
    simp only [my_classification_job, if_pos hcv]
    split <;> simp
  have hmem : JobOutcome.raised ∉
      completed.map (fun a => my_classification_job cv a (behavior a)) := by
    rw [List.mem_map]
    rintro ⟨a, ha, hr⟩
    exact hnr a ha hr
  refine ⟨assembleReport ((completed.map
      (fun a => my_classification_job cv a (behavior a))).filterMap okPart),
    ?_, ?_⟩
  · rw [my_classification, collectCompleted_no_raise _ hmem]
    rfl
  · simp only [assembleReport]
    exact filterMap_okPart_cv_pos cv hcv behavior completed

/-- Witness for `fit_failure_caught_when_cv_pos`: two jobs under `cv = 5`,
the logistic one failing during search/fit, completing after the KNN one;
only the KNN row remains. -/
theorem fit_failure_caught_when_cv_pos_witness :
    (0 : Nat) < 5
    ∧ ∃ r, my_classification 5 none
          (fun a => match a with
            | .logistic => { gridFitRaises := true, fitRaises := false, scores := [] }
            | _ => { gridFitRaises := false, fitRaises := false, scores := [] })
          [Alg.knn, Alg.logistic] = .ok r
        ∧ r.estimator_names =
            ([Alg.knn, Alg.logistic].filter (fun a =>
              !((fun a => match a with
                | Alg.logistic =>
                    ({ gridFitRaises := true, fitRaises := false, scores := [] } : ExtBehavior)
                | _ => { gridFitRaises := false, fitRaises := false, scores := [] }) a).gridFitRaises)).map
              Alg.className :=
  ⟨by decide, fit_failure_caught_when_cv_pos 5 (by decide) none _ [Alg.knn, Alg.logistic]⟩

/-- Whether a job produced an estimator (rather than `None` or a stored
exception). -/
def jobSucceeded (cv : Nat) (behavior : Alg → ExtBehavior) (a : Alg) : Bool :=
  match my_classification_job cv a (behavior a) with
  | .ok _ => true
  | .failedNone => false
  | .raised => false

theorem filterMap_okPart_succeeded (cv : Nat) (behavior : Alg → ExtBehavior)
    (l : List Alg) :
    (l.map (fun a => my_classification_job cv a (behavior a))).filterMap okPart
      = (l.filter (jobSucceeded cv behavior)).map
          (fun a => (⟨a, (behavior a).scores⟩ : FitResult)) := by
  induction l with
  | nil => rfl
  | cons a rest ih =>
    by_cases hcv : 0 < cv
    · by_cases hg : (behavior a).gridFitRaises
      · have hj : my_classification_job cv a (behavior a) = .failedNone := by
          simp [my_classification_job, hcv, hg]
        simp [List.map_cons, hj, List.filterMap_cons, okPart,
          List.filter_cons, jobSucceeded, ih, -List.filterMap_map]
      · have hj : my_classification_job cv a (behavior a)
            = .ok ⟨a, (behavior a).scores⟩ := by
          simp [my_classification_job, hcv, hg]
        simp [List.map_cons, hj, List.filterMap_cons, okPart,
          List.filter_cons, jobSucceeded, ih, -List.filterMap_map]
    · by_cases hf : (behavior a).fitRaises
      · have hj : my_classification_job cv a (behavior a) = .raised := by
          simp [my_classification_job, hcv, hf]
        simp [List.map_cons, hj, List.filterMap_cons, okPart,
          List.filter_cons, jobSucceeded, ih, -List.filterMap_map]
      · have hj : my_classification_job cv a (behavior a)
            = .ok ⟨a, (behavior a).scores⟩ := by
          simp [my_classification_job, hcv, hf]
        simp [List.map_cons, hj, List.filterMap_cons, okPart,
          List.filter_cons, jobSucceeded, ih, -List.filterMap_map]

/-- Claim C2: whenever the dispatcher returns a report, the rows of the report
and mapping entries are exactly the jobs that produced an estimator, taken
in completion order (the order of `completed`, which is any permutation of
the submission order), with one scorecard row per entry. -/
theorem report_rows_completion_order (cv : Nat)
    (algorithm : Option (List String)) (behavior : Alg → ExtBehavior)
    (completed : List Alg) (r : Report)
    (hperm : completed.Perm (submittedAlgs algorithm))
    (hok : my_classification cv algorithm behavior completed = .ok r) :
    r.estimator_names
        = (completed.filter (jobSucceeded cv behavior)).map Alg.className
    ∧ r.estimators.map Prod.fst = r.estimator_names
    ∧ r.results.length = r.estimator_names.length := by
  rw [my_classification] at hok
  cases hcol : collectCompleted
      (completed.map (fun a => my_classification_job cv a (behavior a))) with
  | error s => rw [hcol] at hok; exact absurd hok (by simp [Except.map])
  | ok es =>
    rw [hcol] at hok
    simp only [Except.map, Except.ok.injEq] at hok
    obtain ⟨-, hes⟩ := collectCompleted_ok_inv _ es hcol
    subst hes
    rw [filterMap_okPart_succeeded] at hok
    subst hok
    refine ⟨?_, ?_, ?_⟩
    · simp [assembleReport, List.map_map, Function.comp]
    · simp [assembleReport, List.map_map, Function.comp]
    · simp [assembleReport]

/-- Behaviour for the `report_rows_completion_order` witness: the SVC job
fails during search, the rest succeed. -/
def svcFailsBehavior : Alg → ExtBehavior := fun a =>
  match a with
  | .svc => { gridFitRaises := true, fitRaises := false, scores := [] }
  | _ => { gridFitRaises := false, fitRaises := false, scores := [] }

/-- Witness for `report_rows_completion_order`: all six jobs submitted,
completing in the order sgd, logistic, knn, svc, nb, dtree; the report
keeps the five successes in that completion order. -/
theorem report_rows_completion_order_witness :
    ([Alg.sgd, Alg.logistic, Alg.knn, Alg.svc, Alg.nb, Alg.dtree].Perm
        (submittedAlgs none))
    ∧ (assembleReport
          ([Alg.sgd, Alg.logistic, Alg.knn, Alg.svc, Alg.nb, Alg.dtree].map
              (fun a => my_classification_job 5 a (svcFailsBehavior a))
            |>.filterMap okPart)).estimator_names
        = (([Alg.sgd, Alg.logistic, Alg.knn, Alg.svc, Alg.nb, Alg.dtree].filter
            (jobSucceeded 5 svcFailsBehavior)).map Alg.className) := by
  have hperm : [Alg.sgd, Alg.logistic, Alg.knn, Alg.svc, Alg.nb, Alg.dtree].Perm
      (submittedAlgs none) := by decide
  have hok : my_classification 5 none svcFailsBehavior
      [Alg.sgd, Alg.logistic, Alg.knn, Alg.svc, Alg.nb, Alg.dtree]
      = .ok (assembleReport
          ([Alg.sgd, Alg.logistic, Alg.knn, Alg.svc, Alg.nb, Alg.dtree].map
              (fun a => my_classification_job 5 a (svcFailsBehavior a))
            |>.filterMap okPart)) := rfl
  exact ⟨hperm,
    (report_rows_completion_order 5 none svcFailsBehavior _ _ hperm hok).1⟩

/-- Claim C3, counterexample: a run in which zero jobs succeed but
`my_classification` does not return an empty report — the single `sgd` job
is run with `cv = 0` and its unguarded `estimator.fit` raises, so the
dispatcher re-raises the exception to the caller instead of returning. -/
theorem all_failed_raises_counterexample :
    submittedAlgs (some ["sgd"]) = [Alg.sgd]
    ∧ my_classification 0 (some ["sgd"]) (fun _ => fitRaisingBehavior) [Alg.sgd]
      = .error "exception re-raised by p.result()" := ⟨rfl, rfl⟩

/-- Claim C3, amended: if zero jobs succeed and every failure was caught
at the job boundary (the job returned `None`, as search and fit failures
under `cv > 0` do), `my_classification` returns an empty report — an empty
name-to-result mapping, an empty row index and an empty table — rather
than raising or signalling failure.  A `cv = 0` fit exception instead
propagates to the caller, as the counterexample shows. -/
theorem all_failed_empty_report (cv : Nat) (algorithm : Option (List String))
    (behavior : Alg → ExtBehavior) (completed : List Alg)
    (hperm : completed.Perm (submittedAlgs algorithm))
    (hfail : ∀ a ∈ completed,
      my_classification_job cv a (behavior a) = .failedNone) :
    my_classification cv algorithm behavior completed
      = .ok { estimator_names := [], estimators := [], results := [] } := by
  clear hperm
  have hcollect : collectCompleted
      (completed.map (fun a => my_classification_job cv a (behavior a)))
      = .ok [] := by
    induction completed with
    | nil => rfl
    | cons a rest ih =>
      rw [List.map_cons, hfail a (List.mem_cons_self a rest), collectCompleted,
        ih (fun b hb => hfail b (List.mem_cons_of_mem a hb))]
  rw [my_classification, hcollect]
  rfl

/-- Witness for `all_failed_empty_report`: all six jobs submitted with
`cv = 5`, every search failing, completing in submission order. -/
theorem all_failed_empty_report_witness :
    ([Alg.logistic, Alg.knn, Alg.svc, Alg.nb, Alg.dtree, Alg.sgd].Perm
        (submittedAlgs none))
    ∧ my_classification 5 none
        (fun _ => { gridFitRaises := true, fitRaises := false, scores := [] })
        [Alg.logistic, Alg.knn, Alg.svc, Alg.nb, Alg.dtree, Alg.sgd]
      = .ok { estimator_names := [], estimators := [], results := [] } := by
  have hperm : [Alg.logistic, Alg.knn, Alg.svc, Alg.nb, Alg.dtree, Alg.sgd].Perm
      (submittedAlgs none) := by decide
  exact ⟨hperm, all_failed_empty_report 5 none _ _ hperm (by decide)⟩

/-- Behaviour of the jobs in the two-algorithm binary scenario: `cv = 0`,
every fit succeeds, and the stored scorecard of a train-only run is the
training-split scorecard.  `hasProba` is `true` for both jobs because both
`LogisticRegression` and `DecisionTreeClassifier` expose `predict_proba`
in sklearn. -/
def c4Behavior (m : Alg → Metrics) : Alg → ExtBehavior := fun a =>
  { gridFitRaises := false, fitRaises := false
    scores := my_classification_result_train true a.className true none (m a) }

/-- Claim C4, counterexample: in the scenario (2 classes, algorithms
restricted to logistic and dtree, `cv = 0`) the decision-tree scorecard is
not restricted to accuracy/precision/recall/fallout/specificity/F1 — it
also carries the pseudo R2 key (always present in the binary branch) and
an AUC key, because `DecisionTreeClassifier` has `predict_proba` and the
AUC entry is gated only on that attribute. -/
theorem scenario_scorecard_extra_keys_counterexample :
    my_classification 0 (some ["logistic", "dtree"]) (c4Behavior fun _ => m0)
        [Alg.logistic, Alg.dtree]
      = .ok (assembleReport
          [ ⟨Alg.logistic,
              my_classification_result_train true "LogisticRegression" true none m0⟩
          , ⟨Alg.dtree,
              my_classification_result_train true "DecisionTreeClassifier" true none m0⟩ ])
    ∧ pseudoKey ∈ (my_classification_result_train true "DecisionTreeClassifier"
        true none m0).map Prod.fst
    ∧ "AUC" ∈ (my_classification_result_train true "DecisionTreeClassifier"
        true none m0).map Prod.fst := by
  refine ⟨rfl, ?_, ?_⟩ <;>
    · rw [binary_train_keys_proba]
      decide

/-- Claim C4, amended: in the scenario the report has exactly 2 rows, the
row names are the two class names (in completion order), and the scorecard of each model
 contains exactly the keys pseudo R2, accuracy, precision,
recall, fallout, specificity (TNR), F1 and AUC — AUC for both models,
since the decision tree also supplies probability estimates, and pseudo R2
stored (with value 0 for the tree) even though it is dropped from a
displayed table for non-logistic models. -/
theorem scenario_two_rows_amended (m : Alg → Metrics) (completed : List Alg)
    (hperm : completed.Perm (submittedAlgs (some ["logistic", "dtree"]))) :
    ∃ r, my_classification 0 (some ["logistic", "dtree"]) (c4Behavior m)
          completed = .ok r
      ∧ r.estimator_names.length = 2
      ∧ r.results.length = 2
      ∧ r.estimator_names.Perm ["LogisticRegression", "DecisionTreeClassifier"]
      ∧ ∀ row ∈ r.results, row.map Prod.fst = binaryKeysWithProba := by
  have hsub : submittedAlgs (some ["logistic", "dtree"])
      = [Alg.logistic, Alg.dtree] := rfl
  rw [hsub] at hperm
  have hall : ∀ a ∈ completed,
      my_classification_job 0 a (c4Behavior m a)
        = .ok ⟨a, (c4Behavior m a).scores⟩ := fun a _ => rfl
  refine ⟨_, my_classification_all_ok 0 (some ["logistic", "dtree"])
    (c4Behavior m) completed hall, ?_, ?_, ?_, ?_⟩
  · simpa using hperm.length_eq
  · simpa using hperm.length_eq
  · simpa using hperm.map Alg.className
  · intro row hrow
    simp only [List.mem_map] at hrow
    obtain ⟨a, _, hrow⟩ := hrow
    subst hrow
    exact binary_train_keys_proba a.className none (m a)

/-- Witness for `scenario_two_rows_amended`, with the jobs completing in
the order dtree, logistic. -/
theorem scenario_two_rows_amended_witness :
    ([Alg.dtree, Alg.logistic].Perm (submittedAlgs (some ["logistic", "dtree"])))
    ∧ ∃ r, my_classification 0 (some ["logistic", "dtree"])
          (c4Behavior fun _ => m0) [Alg.dtree, Alg.logistic] = .ok r
        ∧ r.estimator_names.length = 2
        ∧ r.results.length = 2
        ∧ r.estimator_names.Perm ["LogisticRegression", "DecisionTreeClassifier"]
        ∧ ∀ row ∈ r.results, row.map Prod.fst = binaryKeysWithProba := by
  have hperm : [Alg.dtree, Alg.logistic].Perm
      (submittedAlgs (some ["logistic", "dtree"])) := by decide
  exact ⟨hperm, scenario_two_rows_amended (fun _ => m0) _ hperm⟩

theorem algRequested_unknown (l : List String) (hne : l ≠ []) (s : String)
    (hs : s ∉ l) : algRequested (some l) s = false := by
  simp [algRequested, hne, hs]

/-- Claim C9: an empty `algorithm` list behaves exactly like passing no
restriction — all six families are submitted, in the submission order of the source
 — while a non-empty list containing only unrecognized identifiers
submits zero jobs, so the dispatcher returns an empty report without
raising any error for the unknown identifiers. -/
theorem algorithm_list_gating (cv : Nat) (behavior : Alg → ExtBehavior)
    (l : List String) (hne : l ≠ [])
    (hunknown : ∀ s ∈ l,
      s ∉ (["logistic", "knn", "svc", "nb", "dtree", "sgd"] : List String)) :
    submittedAlgs (some []) = submittedAlgs none
    ∧ submittedAlgs none
        = [Alg.logistic, Alg.knn, Alg.svc, Alg.nb, Alg.dtree, Alg.sgd]
    ∧ submittedAlgs (some l) = []
    ∧ my_classification cv (some l) behavior []
        = .ok { estimator_names := [], estimators := [], results := [] } := by
  have hnot : ∀ s ∈ (["logistic", "knn", "svc", "nb", "dtree", "sgd"] :
      List String), s ∉ l := fun s hrec hsl => hunknown s hsl hrec
  refine ⟨rfl, rfl, ?_, rfl⟩
  have h1 := algRequested_unknown l hne "logistic" (hnot _ (by decide))
  have h2 := algRequested_unknown l hne "knn" (hnot _ (by decide))
  have h3 := algRequested_unknown l hne "svc" (hnot _ (by decide))
  have h4 := algRequested_unknown l hne "nb" (hnot _ (by decide))
  have h5 := algRequested_unknown l hne "dtree" (hnot _ (by decide))
  have h6 := algRequested_unknown l hne "sgd" (hnot _ (by decide))
  simp [submittedAlgs, h1, h2, h3, h4, h5, h6]

/-- Witness for `algorithm_list_gating` at the unrecognized list
`["foo"]`. -/
theorem algorithm_list_gating_witness :
    submittedAlgs (some []) = submittedAlgs none
    ∧ submittedAlgs none
        = [Alg.logistic, Alg.knn, Alg.svc, Alg.nb, Alg.dtree, Alg.sgd]
    ∧ submittedAlgs (some ["foo"]) = []
    ∧ my_classification 5 (some ["foo"])
        (fun _ => { gridFitRaises := false, fitRaises := false, scores := [] }) []
        = .ok { estimator_names := [], estimators := [], results := [] } :=
  algorithm_list_gating 5 _ ["foo"] (by decide) (by decide)

theorem countP_pair_split (l : List (Bool × Bool)) :
    l.countP (fun q => q.1 == false && q.2 == false)
      + l.countP (fun q => q.1 == false && q.2 == true)
      = l.countP (fun q => q.1 == false) := by
  induction l with
  | nil => rfl
  | cons q rest ih =>
    rcases q with ⟨a, b⟩
    rw [List.countP_cons, List.countP_cons, List.countP_cons]
    cases a <;> cases b
    · show _ + 1 + (_ + 0) = _ + 1
      omega
    · show _ + 0 + (_ + 1) = _ + 1
      omega
    · show _ + 0 + (_ + 0) = _ + 0
      omega
    · show _ + 0 + (_ + 0) = _ + 0
      omega

theorem zip_countP_fst (y_true y_pred : List Bool)
    (h : y_true.length = y_pred.length) :
    (y_true.zip y_pred).countP (fun q => q.1 == false)
      = y_true.countP (fun b => b == false) := by
  induction y_true generalizing y_pred with
  | nil => simp
  | cons b rest ih =>
    cases y_pred with
    | nil => simp at h
    | cons c ypr =>
      simp only [List.zip_cons_cons, List.countP_cons]
      rw [ih ypr (by simpa using h)]

theorem bool_dedup_length_two (l : List Bool) (h0 : false ∈ l)
    (h1 : true ∈ l) : l.dedup.length = 2 := by
  have huniv : l.toFinset = Finset.univ := by
    apply Finset.eq_univ_iff_forall.mpr
    intro b
    cases b
    · exact List.mem_toFinset.mpr h0
    · exact List.mem_toFinset.mpr h1
  rw [← List.card_toFinset, huniv]
  simp

theorem countPairs_false_eq_zero (y_true y_pred : List Bool)
    (h : false ∉ y_true) (b : Bool) : countPairs y_true y_pred false b = 0 := by
  rw [countPairs, List.length_eq_zero, List.filter_eq_nil_iff]
  rintro ⟨x, y⟩ hmem hq
  simp only [Bool.and_eq_true, beq_iff_eq] at hq
  obtain ⟨hx, -⟩ := hq
  subst hx
  exact h (List.of_mem_zip hmem).1

/-- Claim C8: the binary metric computation never raises when every class
appears in `y_true` (which makes the confusion matrix 2x2 and keeps
`roc_auc_score` defined), and its fallout and specificity entries are then
present numbers; when the negative class is empty in `y_true` (here with
`y_pred` supplying the missing label, so the matrix is still 2x2, and no
probability estimates, so `roc_auc_score` is not called) the two entries
are NaN — `some none` in the model, never a silently-coerced `some (some 0)`. -/
theorem binary_metric_edge_cases (y_true y_pred : List Bool) (cn : String)
    (hp : Bool) (ext : Metrics) (hlen : y_true.length = y_pred.length) :
    (false ∈ y_true → true ∈ y_true →
      ∃ s, my_classification_result_train_binary y_true y_pred cn hp ext
          = .ok s
        ∧ (∃ q, s.lookup "위양성율(Fallout)" = some (some q))
        ∧ (∃ q, s.lookup "특이성(TNR)" = some (some q)))
    ∧ (false ∉ y_true → y_true ≠ [] → false ∈ y_pred →
        ∃ s, my_classification_result_train_binary y_true y_pred cn false ext
            = .ok s
          ∧ s.lookup "위양성율(Fallout)" = some none
          ∧ s.lookup "특이성(TNR)" = some none) := by
  constructor
  · intro h0 h1
    have hcm : (cmLabels y_true y_pred).length = 2 :=
      bool_dedup_length_two _ (List.mem_append_left _ h0)
        (List.mem_append_left _ h1)
    have hyd : y_true.dedup.length = 2 := bool_dedup_length_two _ h0 h1
    have hok : my_classification_result_train_binary y_true y_pred cn hp ext
        = .ok (my_classification_result_train true cn hp none
            (metricsWith y_true y_pred ext)) := by
      simp [my_classification_result_train_binary, hcm, hyd]
    have hpos : 0 < countPairs y_true y_pred false false
        + countPairs y_true y_pred false true := by
      rw [countPairs, countPairs, ← List.countP_eq_length_filter,
        ← List.countP_eq_length_filter, countP_pair_split,
        zip_countP_fst _ _ hlen]
      exact List.countP_pos_iff.mpr ⟨false, h0, rfl⟩
    have hden : (((metricsWith y_true y_pred ext).TN : ℚ)
        + ((metricsWith y_true y_pred ext).FP : ℚ)) ≠ 0 := by
      show ((countPairs y_true y_pred false false : ℚ)
        + (countPairs y_true y_pred false true : ℚ)) ≠ 0
      rw [← Nat.cast_add]
      exact Nat.cast_ne_zero.mpr (Nat.pos_iff_ne_zero.mp hpos)
    have hnp : npDiv ((metricsWith y_true y_pred ext).FP : ℚ)
        (((metricsWith y_true y_pred ext).TN : ℚ)
          + ((metricsWith y_true y_pred ext).FP : ℚ))
        = some (((metricsWith y_true y_pred ext).FP : ℚ)
            / (((metricsWith y_true y_pred ext).TN : ℚ)
              + ((metricsWith y_true y_pred ext).FP : ℚ))) := by
      rw [npDiv, if_neg hden]
    exact ⟨_, hok, ⟨_, by rw [binary_train_lookup_fallout, hnp]⟩,
      ⟨_, by rw [binary_train_lookup_tnr, hnp]; rfl⟩⟩
  · intro h0 hne hfp
    have h1 : true ∈ y_true := by
      cases y_true with
      | nil => exact absurd rfl hne
      | cons b rest =>
        cases b
        · exact absurd (List.mem_cons_self false rest) h0
        · exact List.mem_cons_self true rest
    have hcm : (cmLabels y_true y_pred).length = 2 :=
      bool_dedup_length_two _ (List.mem_append_right _ hfp)
        (List.mem_append_left _ h1)
    have hok : my_classification_result_train_binary y_true y_pred cn false ext
        = .ok (my_classification_result_train true cn false none
            (metricsWith y_true y_pred ext)) := by
      simp [my_classification_result_train_binary, hcm]
    have hTN : (metricsWith y_true y_pred ext).TN = 0 :=
      countPairs_false_eq_zero _ _ h0 false
    have hFP : (metricsWith y_true y_pred ext).FP = 0 :=
      countPairs_false_eq_zero _ _ h0 true
    have hnp : npDiv ((metricsWith y_true y_pred ext).FP : ℚ)
        (((metricsWith y_true y_pred ext).TN : ℚ)
          + ((metricsWith y_true y_pred ext).FP : ℚ)) = none := by
      rw [hTN, hFP]
      simp [npDiv]
    exact ⟨_, hok, by rw [binary_train_lookup_fallout, hnp],
      by rw [binary_train_lookup_tnr, hnp]; rfl⟩

/-- Witness for `binary_metric_edge_cases`: both classes present in
`y_true` for the first part; a positive-only `y_true` with a negative
prediction for the second. -/
theorem binary_metric_edge_cases_witness :
    (∃ s, my_classification_result_train_binary [false, true] [true, true]
          "LogisticRegression" true m0 = .ok s
        ∧ (∃ q, s.lookup "위양성율(Fallout)" = some (some q))
        ∧ (∃ q, s.lookup "특이성(TNR)" = some (some q)))
    ∧ (∃ s, my_classification_result_train_binary [true] [false] "SVC" false m0
          = .ok s
        ∧ s.lookup "위양성율(Fallout)" = some none
        ∧ s.lookup "특이성(TNR)" = some none) := by
  constructor
  · exact (binary_metric_edge_cases [false, true] [true, true]
      "LogisticRegression" true m0 rfl).1 (by decide) (by decide)
  · exact (binary_metric_edge_cases [true] [false] "SVC" false m0 rfl).2
      (by decide) (by decide) (by decide)
